import Mathlib

/-!
# Verification of the MediaFire download proxy worker (`api/index.js`)

Shallow embedding of the Cloudflare-worker source in Lean 4.  Strings are
processed as `List Char`.  The JavaScript regular expressions of the source
are transcribed as abstract-syntax values of a small regex type `RE`, and a
backtracking matcher `reMatch` reproduces the JS engine's semantics on the
constructs those regexes use: ordered alternation (leftmost alternative
first), greedy and lazy character-class repetition with backtracking, one
capturing group, and leftmost-position search (`String.prototype.match`
without the `g` flag).
-/

set_option maxRecDepth 10000

/-- The apostrophe character, used in the source's regex literal
`(?:UTF-8'')?` and in its Spanish error message. -/
def apos : Char := Char.ofNat 39

/-! ## Regex abstract syntax and matcher -/

/-- Regex abstract syntax, covering the constructs used by the five regex
literals of `api/index.js`: case-insensitive and case-sensitive literal
characters, character classes (as decidable predicates), sequencing, ordered
alternation, greedy and lazy starred character classes, and a single
capturing group. -/
inductive RE : Type where
  | eps : RE
  | chi : Char → RE          -- literal character under the /i flag
  | chs : Char → RE          -- literal character, case-sensitive
  | cls : (Char → Bool) → RE -- character class, one character
  | seq : RE → RE → RE
  | alt : RE → RE → RE       -- ordered: left alternative tried first
  | starG : (Char → Bool) → RE -- greedy `[...]*`
  | starL : (Char → Bool) → RE -- lazy `[...]*?`
  | grp : RE → RE            -- the capturing group (group 1)

/-- Greedy Kleene star over a character class: consume as many class
characters as possible, backtracking to shorter prefixes on failure, exactly
as a JS greedy quantifier does. -/
def greedyStar (p : Char → Bool) (k : List Char → Option (List Char)) :
    List Char → Option (List Char)
  | [] => k []
  | c :: s => (if p c then greedyStar p k s else none) <|> k (c :: s)

/-- Lazy Kleene star over a character class: try consuming nothing first,
extending one character at a time, as a JS lazy quantifier does. -/
def lazyStar (p : Char → Bool) (k : List Char → Option (List Char)) :
    List Char → Option (List Char)
  | [] => k []
  | c :: s => k (c :: s) <|> (if p c then lazyStar p k s else none)

/-- Backtracking matcher in continuation-passing style.  The continuation
receives the unconsumed input; the overall result is the text captured by
the regex's group (JS `match[1]`).  Alternation tries the left alternative
first and `grp` records the characters its body consumed, mirroring the JS
engine on the regexes of the source. -/
def reMatch : RE → List Char → (List Char → Option (List Char)) → Option (List Char)
  | .eps, s, k => k s
  | .chi _, [], _ => none
  | .chi c, d :: s, k => if c.toLower = d.toLower then k s else none
  | .chs _, [], _ => none
  | .chs c, d :: s, k => if c = d then k s else none
  | .cls _, [], _ => none
  | .cls p, d :: s, k => if p d then k s else none
  | .seq a b, s, k => reMatch a s (fun s1 => reMatch b s1 k)
  | .alt a b, s, k => reMatch a s k <|> reMatch b s k
  | .starG p, s, k => greedyStar p k s
  | .starL p, s, k => lazyStar p k s
  | .grp r, s, k =>
      reMatch r s (fun s1 => (k s1).map (fun _ => s.take (s.length - s1.length)))

/-- Match the whole regex starting exactly at the beginning of `s`
(the rest of the input may remain unconsumed). -/
def matchTop (r : RE) (s : List Char) : Option (List Char) :=
  reMatch r s (fun _ => some [])

/-- Leftmost-position search, as `String.prototype.match` without `g`:
try to match at each successive position and return the first success's
group-1 capture. -/
def searchCapture (r : RE) : List Char → Option (List Char)
  | [] => matchTop r []
  | c :: s => matchTop r (c :: s) <|> searchCapture r s

/-! ## Regex-building helpers -/

/-- A chain of single-character regexes, sequenced. -/
def litChain (f : Char → RE) (cs : List Char) : RE :=
  cs.foldr (fun c r => RE.seq (f c) r) RE.eps

/-- Case-insensitive literal (a literal inside a `/i` regex). -/
def liti (s : String) : RE := litChain RE.chi s.data

/-- Case-sensitive literal. -/
def lits (s : String) : RE := litChain RE.chs s.data

/-- `x?` (greedy option): try `r`, else match nothing. -/
def reOpt (r : RE) : RE := RE.alt r RE.eps

/-- `[...]+` greedy plus over a character class. -/
def plusCls (p : Char → Bool) : RE := RE.seq (RE.cls p) (RE.starG p)

/-- Ordered alternation of a list of regexes (left to right). -/
def altList : List RE → RE
  | [] => RE.eps
  | [r] => r
  | r :: rs => RE.alt r (altList rs)

/-- JS `\s`: the whitespace class of ECMAScript regexes. -/
def jsWhitespace (c : Char) : Bool :=
  let n := c.toNat
  n = 32 || (9 ≤ n && n ≤ 13) || n = 160 || n = 0x1680 ||
  (0x2000 ≤ n && n ≤ 0x200A) || n = 0x2028 || n = 0x2029 ||
  n = 0x202F || n = 0x205F || n = 0x3000 || n = 0xFEFF

/-- `[^>]` -/
def notGt (c : Char) : Bool := c ≠ '>'

/-- `[^"]` -/
def notQuote (c : Char) : Bool := c ≠ '"'

/-- `[^;"]` -/
def notSemiQuote (c : Char) : Bool := !(c = ';' || c = '"')

/-- `[^\s"'<>;]` (the URL-character class of regex 4). -/
def urlChar (c : Char) : Bool :=
  !(jsWhitespace c || c = '"' || c = apos || c = '<' || c = '>' || c = ';')

/-- `[a-zA-Z0-9]` -/
def alnum (c : Char) : Bool :=
  let n := c.toNat
  (97 ≤ n && n ≤ 122) || (65 ≤ n && n ≤ 90) || (48 ≤ n && n ≤ 57)

/-- `https?:\/\/` followed by a captured body: shared shape of the captures
of regexes 2 and 3, `(https?:\/\/[^"]+)`. -/
def httpUrlQuoteBody : RE :=
  RE.seq (liti "http") (RE.seq (reOpt (RE.chi 's'))
    (RE.seq (liti "://") (plusCls notQuote)))

/-! ## The source's regexes -/

/-- `/<a[^>]*id="download-button"[^>]*href="([^"]+)"/i` (line 90). -/
def downloadLinkRegex1 : RE :=
  RE.seq (liti "<a")
    (RE.seq (RE.starG notGt)
      (RE.seq (liti "id=\"download-button\"")
        (RE.seq (RE.starG notGt)
          (RE.seq (liti "href=\"")
            (RE.seq (RE.grp (plusCls notQuote)) (RE.chi '"'))))))

/-- `/var\s+download_url\s*=\s*"(https?:\/\/[^"]+)";/i` (line 97). -/
def jsDownloadLinkRegex2 : RE :=
  RE.seq (liti "var")
    (RE.seq (plusCls jsWhitespace)
      (RE.seq (liti "download_url")
        (RE.seq (RE.starG jsWhitespace)
          (RE.seq (RE.chi '=')
            (RE.seq (RE.starG jsWhitespace)
              (RE.seq (RE.chi '"')
                (RE.seq (RE.grp httpUrlQuoteBody) (liti "\";"))))))))

/-- `/window\.dl_link\s*=\s*"(https?:\/\/[^"]+)";/i` (line 103). -/
def dlLinkRegex3 : RE :=
  RE.seq (liti "window.dl_link")
    (RE.seq (RE.starG jsWhitespace)
      (RE.seq (RE.chi '=')
        (RE.seq (RE.starG jsWhitespace)
          (RE.seq (RE.chi '"')
            (RE.seq (RE.grp httpUrlQuoteBody) (liti "\";"))))))

/-- The extension alternation of regex 4, in source order:
`zip|rar|7z|exe|mp4|mp3|pdf|doc|docx|xls|xlsx|ppt|pptx|jpg|jpeg|png|gif|txt|iso|apk|dmg|deb|rpm|tar\.gz|gz|bz2|xz`. -/
def extAlternation : RE :=
  altList [liti "zip", liti "rar", liti "7z", liti "exe", liti "mp4",
    liti "mp3", liti "pdf", liti "doc", liti "docx", liti "xls",
    liti "xlsx", liti "ppt", liti "pptx", liti "jpg", liti "jpeg",
    liti "png", liti "gif", liti "txt", liti "iso", liti "apk",
    liti "dmg", liti "deb", liti "rpm", liti "tar.gz", liti "gz",
    liti "bz2", liti "xz"]

/-- `/<script[^>]*>[\s\S]*?(https?:\/\/[^\s"'<>;]+\.(?:…))[\s\S]*?<\/script>/i`
(line 109). -/
def directLinkInScriptRegex4 : RE :=
  RE.seq (liti "<script")
    (RE.seq (RE.starG notGt)
      (RE.seq (RE.chi '>')
        (RE.seq (RE.starL (fun _ => true))
          (RE.seq (RE.grp
              (RE.seq (liti "http")
                (RE.seq (reOpt (RE.chi 's'))
                  (RE.seq (liti "://")
                    (RE.seq (plusCls urlChar)
                      (RE.seq (RE.chi '.') extAlternation))))))
            (RE.seq (RE.starL (fun _ => true)) (liti "</script>"))))))

/-- `/filename\*?=['"]?(?:UTF-8'')?([^;"]+)/i` (line 166). -/
def filenameRegexCD : RE :=
  RE.seq (liti "filename")
    (RE.seq (reOpt (RE.chi '*'))
      (RE.seq (RE.chi '=')
        (RE.seq (reOpt (RE.cls (fun c => c = apos || c = '"')))
          (RE.seq (reOpt (RE.seq (liti "UTF-8") (RE.seq (RE.chi apos) (RE.chi apos))))
            (RE.grp (plusCls notSemiQuote))))))

/-- `/\/file\/([a-zA-Z0-9]+)\//` (line 182, no `/i` flag). -/
def hashRegex : RE :=
  RE.seq (lits "/file/") (RE.seq (RE.grp (plusCls alnum)) (RE.chs '/'))

/-! ## The extractor (lines 88–116) -/

/-- JS truthiness of `match && match[1]`: a successful match whose group-1
capture is a non-empty string. -/
def nonemptyOpt : Option (List Char) → Option (List Char)
  | some c => if c.isEmpty then none else some c
  | none => none

/-- Lines 90–116: try the four regexes in strict priority order and return
the first match with a non-empty group 1 (`directDownloadUrl`); `none`
models the variable staying `null`. -/
def extractDirectUrl (html : List Char) : Option (List Char) :=
  match nonemptyOpt (searchCapture downloadLinkRegex1 html) with
  | some u => some u
  | none =>
    match nonemptyOpt (searchCapture jsDownloadLinkRegex2 html) with
    | some u => some u
    | none =>
      match nonemptyOpt (searchCapture dlLinkRegex3 html) with
      | some u => some u
      | none => nonemptyOpt (searchCapture directLinkInScriptRegex4 html)

/-! ## String helpers mirroring JS string operations -/

/-- `haystack.includes(needle)` (JS `String.prototype.includes`). -/
def strIncludes (hay needle : List Char) : Bool :=
  match hay with
  | [] => needle.isEmpty
  | _ :: t => needle.isPrefixOf hay || strIncludes t needle

/-- `s.split(sep)` for a one-character separator: always at least one
element, empty pieces preserved, exactly as in JS. -/
def splitOnCharL (sep : Char) : List Char → List (List Char)
  | [] => [[]]
  | c :: s =>
    if c = sep then [] :: splitOnCharL sep s
    else
      match splitOnCharL sep s with
      | [] => [[c]]
      | t :: ts => (c :: t) :: ts

/-- `s.replace(/\+/g, ' ')`: every plus sign becomes a space. -/
def plusToSpace (s : List Char) : List Char :=
  s.map (fun c => if c = '+' then ' ' else c)

/-- `a.startsWith(p)` (JS `String.prototype.startsWith`). -/
def strStartsWith (s p : String) : Bool := p.data.isPrefixOf s.data

/-- JS `x || d` on a nullable string: `null`/absent and the empty string
are falsy and yield the default. -/
def jsOr (o : Option String) (d : String) : String :=
  match o with
  | some s => if s = "" then d else s
  | none => d

/-! ## `decodeURIComponent` (ECMAScript builtin, modelled)

Model of the ECMAScript `Decode` abstract operation as used by
`decodeURIComponent`: each `%HH` escape contributes a byte, multibyte UTF-8
sequences must be complete, well-formed escapes (continuation bytes in
`80..BF`, no overlong forms, no surrogates, max `U+10FFFF`); any violation
throws `URIError`, modelled as `none`.  Unescaped characters pass through. -/

/-- Value of one hex digit, or `none`. -/
def hexDigit (c : Char) : Option Nat :=
  let n := c.toNat
  if 48 ≤ n ∧ n ≤ 57 then some (n - 48)
  else if 65 ≤ n ∧ n ≤ 70 then some (n - 55)
  else if 97 ≤ n ∧ n ≤ 102 then some (n - 87)
  else none

/-- Read one `%HH` escape from the head of the input, returning the byte and
the rest. -/
def pctByte : List Char → Option (Nat × List Char)
  | '%' :: h1 :: h2 :: rest =>
    match hexDigit h1, hexDigit h2 with
    | some a, some b => some (16 * a + b, rest)
    | _, _ => none
  | _ => none

/-- Check a UTF-8 continuation byte. -/
def isCont (b : Nat) : Bool := 128 ≤ b && b ≤ 191

/-- Decode the UTF-8 sequence whose lead byte is `b0` (already read),
pulling continuation bytes as further `%HH` escapes. -/
def utf8FromPct (b0 : Nat) (rest : List Char) : Option (Char × List Char) :=
  if b0 < 0x80 then some (Char.ofNat b0, rest)
  else if b0 < 0xC2 then none
  else if b0 < 0xE0 then
    match pctByte rest with
    | some (b1, r1) =>
      if isCont b1 then some (Char.ofNat ((b0 - 0xC0) * 64 + (b1 - 0x80)), r1)
      else none
    | none => none
  else if b0 < 0xF0 then
    match pctByte rest with
    | some (b1, r1) =>
      match pctByte r1 with
      | some (b2, r2) =>
        if isCont b1 && isCont b2 then
          let cp := (b0 - 0xE0) * 4096 + (b1 - 0x80) * 64 + (b2 - 0x80)
          if cp < 0x800 ∨ (0xD800 ≤ cp ∧ cp ≤ 0xDFFF) then none
          else some (Char.ofNat cp, r2)
        else none
      | none => none
    | none => none
  else if b0 < 0xF5 then
    match pctByte rest with
    | some (b1, r1) =>
      match pctByte r1 with
      | some (b2, r2) =>
        match pctByte r2 with
        | some (b3, r3) =>
          if isCont b1 && isCont b2 && isCont b3 then
            let cp := (b0 - 0xF0) * 262144 + (b1 - 0x80) * 4096 +
              (b2 - 0x80) * 64 + (b3 - 0x80)
            if cp < 0x10000 ∨ 0x10FFFF < cp then none
            else some (Char.ofNat cp, r3)
          else none
        | none => none
      | none => none
    | none => none
  else none

/-- Fuel-driven worker for `decodeURIComponentL`; the fuel is an upper bound
on the input length, so the zero-fuel clause is never reached. -/
def decodeAux : Nat → List Char → Option (List Char)
  | _, [] => some []
  | 0, _ :: _ => none
  | fuel + 1, c :: rest =>
    if c = '%' then
      match pctByte (c :: rest) with
      | some (b0, r0) =>
        match utf8FromPct b0 r0 with
        | some (ch, r1) => (decodeAux fuel r1).map (ch :: ·)
        | none => none
      | none => none
    else (decodeAux fuel rest).map (c :: ·)

/-- `decodeURIComponent(s)`: `none` models a thrown `URIError`. -/
def decodeURIComponentL (s : List Char) : Option (List Char) :=
  decodeAux s.length s

/-! ## `new URL(...).pathname` (WHATWG URL parser builtin, modelled)

Model of the pathname of `new URL(link)` for `http(s)` links, simplified to
the inputs the worker can pass (links already validated to start with
`http://www.mediafire.com/` or `https://www.mediafire.com/`): the path runs
from the first `/` after the authority up to `?` or `#`; an absent path is
`/`; a link without an `http(s)` scheme or with an empty host fails to
parse (`none` models the constructor throwing). Percent-escapes are kept
verbatim, as the real parser does for them in paths. -/
def urlPathname (link : String) : Option String :=
  let l := link.data
  let afterScheme : Option (List Char) :=
    if "http://".data.isPrefixOf l then some (l.drop 7)
    else if "https://".data.isPrefixOf l then some (l.drop 8)
    else none
  match afterScheme with
  | none => none
  | some r =>
    let isDelim : Char → Bool := fun c => c = '/' || c = '?' || c = '#'
    let host := r.takeWhile (fun c => !isDelim c)
    if host.isEmpty then none
    else
      match r.dropWhile (fun c => !isDelim c) with
      | '/' :: rest => some (String.mk ('/' :: rest.takeWhile (fun c => !(c = '?' || c = '#'))))
      | _ => some "/"

/-! ## Filename inference (lines 160–216) -/

/-- The initial value of `filename` (line 161). -/
def defaultFilename : List Char := "downloaded_file".data

/-- Lines 162–170: the `Content-Disposition` step of filename inference.
`none` models the un-caught `URIError` thrown by `decodeURIComponent`
(line 168 is *outside* any local try/catch); `some none` means the header
was absent or had no usable `filename` parameter, `some (some n)` that it
produced the name `n`. -/
def cdFilename (contentDisposition : Option String) : Option (Option (List Char)) :=
  match contentDisposition with
  | none => some none
  | some h =>
    match nonemptyOpt (searchCapture filenameRegexCD h.data) with
    | none => some none
    | some cap =>
      match decodeURIComponentL cap with
      | none => none
      | some d => some (some d)

/-- Lines 173–189: the URL-path fallback, wrapped in the source's local
`try { … } catch (e) { /* keep the default */ }`.  Never throws: both a
failing `new URL` and a failing `decodeURIComponent` leave the default
name in place. -/
def fallbackName (mediaFireLink : String) : List Char :=
  match urlPathname mediaFireLink with
  | none => defaultFilename
  | some path =>
    let segments := splitOnCharL '/' path.data
    let lastSegment : Option (List Char) :=
      if 2 ≤ segments.length then segments[segments.length - 2]? else none
    match lastSegment with
    | some seg =>
      if !seg.isEmpty && seg ≠ "file".data then
        match decodeURIComponentL (plusToSpace seg) with
        | some d => d
        | none => defaultFilename
      else
        match nonemptyOpt (searchCapture hashRegex path.data) with
        | some h => "mediafire_file_".data ++ h
        | none => defaultFilename
    | none =>
      match nonemptyOpt (searchCapture hashRegex path.data) with
      | some h => "mediafire_file_".data ++ h
      | none => defaultFilename

/-- The source's MIME → extension table (lines 194–210), in source order. -/
def extMap : List (String × String) :=
  [("image/jpeg", "jpg"), ("image/png", "png"), ("image/gif", "gif"),
   ("application/pdf", "pdf"), ("application/zip", "zip"),
   ("application/vnd.rar", "rar"), ("application/x-7z-compressed", "7z"),
   ("audio/mpeg", "mp3"), ("video/mp4", "mp4"),
   ("application/vnd.openxmlformats-officedocument.wordprocessingml.document", "docx"),
   ("application/msword", "doc"),
   ("application/vnd.openxmlformats-officedocument.spreadsheetml.sheet", "xlsx"),
   ("application/vnd.ms-excel", "xls"),
   ("application/vnd.openxmlformats-officedocument.presentationml.presentation", "pptx"),
   ("application/vnd.ms-powerpoint", "ppt"),
   ("application/x-bittorrent", "torrent"),
   ("application/x-iso9660-image", "iso"),
   ("application/vnd.android.package-archive", "apk"),
   ("text/plain", "txt")]

/-- `extMap[mime]` in JS: table lookup by exact key. -/
def extMapLookup (mime : List Char) : Option (List Char) :=
  (extMap.find? (fun p => decide (p.1.data = mime))).map (fun p => p.2.data)

/-- `headers.get('Content-Type').split(';')[0]` (line 193). -/
def mimeOf (ct : List Char) : List Char := (splitOnCharL ';' ct).headD []

/-- Line 211: `extMap[mime] || mime.split('/')[1]`, which may be
`undefined` when the table misses and the MIME type has no slash. -/
def jsExtFor (mime : List Char) : Option (List Char) :=
  match extMapLookup mime with
  | some v => some v
  | none => (splitOnCharL '/' mime)[1]?

/-- Lines 192–215: append an inferred extension when the name has no dot and
the outgoing `Content-Type` is truthy; an empty or already-contained
extension is skipped. -/
def appendExtension (name : List Char) (resolvedCT : String) : List Char :=
  if !(strIncludes name ".".data) && resolvedCT ≠ "" then
    match jsExtFor (mimeOf resolvedCT.data) with
    | some e =>
      if !e.isEmpty && !(strIncludes name e) then name ++ '.' :: e else name
    | none => name
  else name

/-- Lines 160–216 in full: filename inference for `Content-Disposition`.
`none` models the `URIError` of the Content-Disposition decode escaping to
the handler's top-level catch. -/
def computeFilename (contentDisposition : Option String) (mediaFireLink : String)
    (resolvedCT : String) : Option String :=
  match cdFilename contentDisposition with
  | none => none
  | some cdn =>
    let filename := cdn.getD defaultFilename
    if filename = defaultFilename then
      some (String.mk (appendExtension (fallbackName mediaFireLink) resolvedCT))
    else
      some (String.mk filename)

/-! ## The `Headers` object (Fetch API builtin, modelled)

A `Headers` map: `set` replaces any entry with the same name
(case-insensitively), `get` and `delete` look names up case-insensitively,
as the Fetch API specifies.  Entries are `(name, value)` pairs. -/

/-- Lowercase a string (for case-insensitive header-name comparison). -/
def lowerStr (s : String) : String := String.mk (s.data.map Char.toLower)

/-- Header-name equality: case-insensitive. -/
def keyEq (a b : String) : Bool := lowerStr a = lowerStr b

abbrev HeaderMap := List (String × String)

/-- `headers.delete(n)`. -/
def hdelete (h : HeaderMap) (n : String) : HeaderMap :=
  h.filter (fun p => !keyEq p.1 n)

/-- `headers.set(n, v)`: remove any same-named entry, append the new one. -/
def hset (h : HeaderMap) (n v : String) : HeaderMap :=
  hdelete h n ++ [(n, v)]

/-- `headers.get(n)`: value of the first matching entry, else `null`. -/
def hget (h : HeaderMap) (n : String) : Option String :=
  (h.find? (fun p => keyEq p.1 n)).map (fun p => p.2)

/-- `headers.has(n)`. -/
def hhas (h : HeaderMap) (n : String) : Bool := (hget h n).isSome

/-! ## Requests, responses, and the network environment -/

/-- The data of the incoming request that the handler reads: `request.method`,
`url.searchParams.get('require')` (where `none` models an absent parameter),
and `request.headers.get('User-Agent')`. -/
structure IncomingRequest where
  method : String
  requireParam : Option String
  userAgent : Option String

/-- Body of an outgoing response: the `null` body of the preflight reply, a
JSON error envelope `{error, link_provided}`, or the relayed upstream byte
stream (identified by an opaque token). -/
inductive RespBody where
  | empty : RespBody
  | json : String → String → RespBody
  | stream : String → RespBody
deriving DecidableEq

/-- An outgoing `Response`. -/
structure HttpResponse where
  status : Nat
  headers : HeaderMap
  body : RespBody
deriving DecidableEq

/-- Result of `fetch(mediaFireLink, …)` (line 70): status, status text and
the page body as text. -/
structure PageResult where
  status : Nat
  statusText : String
  body : String
deriving DecidableEq

/-- Result of `fetch(directDownloadUrl, …)` (line 127): status, status text,
upstream headers and an opaque body-stream token. -/
structure FileResult where
  status : Nat
  statusText : String
  headers : HeaderMap
  bodyTok : String
deriving DecidableEq

/-- The outbound network, as the two fetches the handler can make: the
landing-page fetch keyed by URL, and the file fetch keyed by URL and the
`User-Agent` value sent with it. -/
structure Network where
  fetchPage : String → PageResult
  fetchFile : String → String → FileResult

/-- `Response.ok`: status in the inclusive range 200–299. -/
def respOk (status : Nat) : Bool := 200 ≤ status && status ≤ 299

/-- The handler's observable behaviour: the response returned plus whether
each of the two outbound fetches was performed. -/
structure Outcome where
  resp : HttpResponse
  fetchedPage : Bool
  fetchedFile : Bool
deriving DecidableEq

/-! ## Response construction -/

/-- The four CORS `headers.set` calls, in source order (identical at the
three sites: preflight, error responder, success path). -/
def setCorsHeaders (h : HeaderMap) : HeaderMap :=
  hset (hset (hset (hset h
    "Access-Control-Allow-Origin" "*")
    "Access-Control-Allow-Methods" "GET, HEAD, OPTIONS")
    "Access-Control-Allow-Headers" "Content-Type")
    "Access-Control-Max-Age" "86400"

/-- `createErrorResponse` (lines 10–27): JSON error envelope with
`Content-Type: application/json`, the CORS headers, and
`link_provided: mediaFireLink || 'N/A'`. -/
def createErrorResponse (message : String) (status : Nat)
    (mediaFireLink : Option String) : HttpResponse :=
  { status := status,
    headers := setCorsHeaders (hset [] "Content-Type" "application/json"),
    body := .json message (jsOr mediaFireLink "N/A") }

/-- The OPTIONS preflight response (lines 36–43). -/
def optionsResponse : HttpResponse :=
  { status := 204, headers := setCorsHeaders [], body := .empty }

/-! ## Error-message constants (the source's Spanish literals) -/

/-- Line 51 (built with an explicit apostrophe around `require`). -/
def msgMissingParam : String :=
  String.mk ("Falta el parámetro ".data ++ [apos] ++ "require".data ++ [apos] ++
    ". Por favor, proporciona un enlace de MediaFire.".data)

/-- Line 60. -/
def msgInvalidLink : String :=
  "Enlace de MediaFire inválido. Debe comenzar con http(s)://www.mediafire.com/"

/-- Line 80. -/
def msgPageError (status : Nat) (statusText : String) : String :=
  "Error al obtener la página de MediaFire: " ++ toString status ++ " " ++ statusText

/-- Line 120. -/
def msgExtractionFailed : String :=
  "No se pudo encontrar el enlace de descarga directo en la página de MediaFire. La estructura de la página podría haber cambiado."

/-- Line 137. -/
def msgDownloadError (status : Nat) (statusText : String) : String :=
  "Error al descargar el archivo del enlace directo: " ++ toString status ++ " " ++ statusText

/-- Line 235, with `error.message` instantiated to the `URIError` message
(the only throw reachable in this embedding is the Content-Disposition
`decodeURIComponent`, whose V8 message is "URI malformed"). -/
def msgInternalError : String :=
  "Error interno del servidor al procesar la solicitud: URI malformed"

/-- The fixed download User-Agent fallback (line 130). -/
def defaultDownloadUA : String := "Mozilla/5.0 (Cloudflare Worker Download Proxy)"

/-! ## The success path and the handler -/

/-- Line 153: `fileResponse.headers.get('Content-Type') || 'application/octet-stream'`. -/
def resolvedContentType (fileR : FileResult) : String :=
  jsOr (hget fileR.headers "Content-Type") "application/octet-stream"

/-- Lines 144–158: fresh headers, the CORS set, the resolved `Content-Type`,
and `Content-Length` copied when the upstream has it. -/
def successBaseHeaders (fileR : FileResult) : HeaderMap :=
  match hget fileR.headers "Content-Length" with
  | some v =>
    hset (hset (setCorsHeaders []) "Content-Type" (resolvedContentType fileR))
      "Content-Length" v
  | none => hset (setCorsHeaders []) "Content-Type" (resolvedContentType fileR)

/-- Lines 221–228: the seven `headers.delete` calls, in source order. -/
def scrubHeaders (h : HeaderMap) : HeaderMap :=
  hdelete (hdelete (hdelete (hdelete (hdelete (hdelete (hdelete h
    "set-cookie") "cf-ray") "alt-svc") "vary") "etag")
    "content-encoding") "accept-ranges"

/-- Lines 144–230: build the relayed success response from the upstream file
response.  `none` models the `URIError` of filename inference escaping to
the top-level catch. -/
def buildSuccessResponse (fileR : FileResult) (mediaFireLink : String) :
    Option HttpResponse :=
  match computeFilename (hget fileR.headers "Content-Disposition") mediaFireLink
      (resolvedContentType fileR) with
  | none => none
  | some fn =>
    some { status := fileR.status,
           headers := scrubHeaders (hset (successBaseHeaders fileR)
             "Content-Disposition" ("attachment; filename=\"" ++ fn ++ "\"")),
           body := .stream fileR.bodyTok }

/-- Lines 135–239: the response built from the upstream file response —
the non-2xx error (lines 135–141), the relayed success, or the 500 of an
escaped `URIError` (lines 232–239). -/
def fileStage (fileR : FileResult) (mediaFireLink : String) : HttpResponse :=
  if !respOk fileR.status then
    createErrorResponse (msgDownloadError fileR.status fileR.statusText)
      fileR.status (some mediaFireLink)
  else
    match buildSuccessResponse fileR mediaFireLink with
    | some r => r
    | none => createErrorResponse msgInternalError 500 (some mediaFireLink)

/-- Lines 68–239: everything after link validation — landing-page fetch,
extraction, file fetch and relay. -/
def pipelineAfterValidation (mediaFireLink : String) (ua : Option String)
    (net : Network) : Outcome :=
  if !respOk (net.fetchPage mediaFireLink).status then
    { resp := createErrorResponse
        (msgPageError (net.fetchPage mediaFireLink).status
          (net.fetchPage mediaFireLink).statusText)
        (net.fetchPage mediaFireLink).status (some mediaFireLink),
      fetchedPage := true, fetchedFile := false }
  else
    match extractDirectUrl (net.fetchPage mediaFireLink).body.data with
    | none =>
      { resp := createErrorResponse msgExtractionFailed 500 (some mediaFireLink),
        fetchedPage := true, fetchedFile := false }
    | some durl =>
      { resp := fileStage (net.fetchFile (String.mk durl) (jsOr ua defaultDownloadUA))
          mediaFireLink,
        fetchedPage := true, fetchedFile := true }

/-- Lines 45–239: validation, landing-page fetch, extraction, file fetch and
relay, with every failure routed through `createErrorResponse`. -/
def mainPipeline (requireParam : Option String) (ua : Option String)
    (net : Network) : Outcome :=
  match requireParam with
  | none =>
    { resp := createErrorResponse msgMissingParam 400 none,
      fetchedPage := false, fetchedFile := false }
  | some mediaFireLink =>
    if mediaFireLink = "" then
      { resp := createErrorResponse msgMissingParam 400 none,
        fetchedPage := false, fetchedFile := false }
    else if !(strStartsWith mediaFireLink "http://www.mediafire.com/") &&
            !(strStartsWith mediaFireLink "https://www.mediafire.com/") then
      { resp := createErrorResponse msgInvalidLink 400 (some mediaFireLink),
        fetchedPage := false, fetchedFile := false }
    else
      pipelineAfterValidation mediaFireLink ua net

/-- The worker's `fetch` entry point (lines 33–241): the OPTIONS preflight
shortcut, then the main pipeline. -/
def handleRequest (req : IncomingRequest) (net : Network) : Outcome :=
  if req.method = "OPTIONS" then
    { resp := optionsResponse, fetchedPage := false, fetchedFile := false }
  else
    mainPipeline req.requireParam req.userAgent net

/-! ## Generic lemmas about the matcher -/

theorem isSome_orElse_left {α : Type} {a b : Option α} (h : a.isSome) :
    (a <|> b).isSome := by
  cases a with
  | none => simp at h
  | some x => rfl

theorem isSome_orElse_right {α : Type} {a b : Option α} (h : b.isSome) :
    (a <|> b).isSome := by
  cases a with
  | none => simpa using h
  | some x => rfl

/-- If the continuation succeeds on the whole input, a greedy star can
succeed by consuming nothing (after backtracking). -/
theorem greedyStar_isSome_base {p k s} (h : (k s).isSome) :
    (greedyStar p k s).isSome := by
  cases s with
  | nil => simpa [greedyStar] using h
  | cons c t => exact isSome_orElse_right h

/-- A greedy star can consume one leading class character. -/
theorem greedyStar_isSome_cons {p k c s} (hc : p c = true)
    (h : (greedyStar p k s).isSome) : (greedyStar p k (c :: s)).isSome := by
  simp only [greedyStar, hc, if_true]
  exact isSome_orElse_left h

/-- A greedy star can consume any block of class characters after which the
continuation succeeds. -/
theorem greedyStar_isSome_append {p k} (l : List Char) {s : List Char}
    (hl : ∀ c ∈ l, p c = true) (h : (k s).isSome) :
    (greedyStar p k (l ++ s)).isSome := by
  induction l with
  | nil => exact greedyStar_isSome_base h
  | cons c t ih =>
    exact greedyStar_isSome_cons (hl c (by simp)) (ih (fun d hd => hl d (by simp [hd])))

/-- Matching a case-insensitive literal against itself consumes it. -/
theorem reMatch_litChain_chi (cs : List Char) (s : List Char)
    (k : List Char → Option (List Char)) :
    reMatch (litChain RE.chi cs) (cs ++ s) k = k s := by
  induction cs with
  | nil => rfl
  | cons c t ih =>
    simp only [litChain, List.foldr, List.cons_append]
    show reMatch (RE.seq (RE.chi c) (litChain RE.chi t)) (c :: (t ++ s)) k = k s
    simp only [reMatch, if_pos rfl]
    exact ih

/-- If the regex matches starting at some suffix of the input, the
leftmost-position search succeeds. -/
theorem searchCapture_isSome_of_suffix {r : RE} {s t : List Char}
    (hsuf : t <:+ s) (h : (matchTop r t).isSome) :
    (searchCapture r s).isSome := by
  induction s with
  | nil =>
    have : t = [] := List.eq_nil_of_suffix_nil hsuf
    subst this
    simpa [searchCapture] using h
  | cons c s ih =>
    rw [searchCapture]
    rcases List.suffix_cons_iff.mp hsuf with h1 | h1
    · subst h1
      exact isSome_orElse_left h
    · exact isSome_orElse_right (ih h1)

/-! ## Generic lemmas about the headers model -/

theorem keyEq_symm_false {m n : String} (h : keyEq m n = false) :
    keyEq n m = false := by
  simp only [keyEq, decide_eq_false_iff_not] at h ⊢
  exact fun e => h e.symm

theorem keyEq_trans_ne {a m n : String} (ham : keyEq a m = true)
    (hmn : keyEq m n = false) : keyEq a n = false := by
  simp only [keyEq, decide_eq_true_eq, decide_eq_false_iff_not] at ham hmn ⊢
  rw [ham]
  exact hmn

theorem hget_hdelete_same (h : HeaderMap) (n : String) :
    hget (hdelete h n) n = none := by
  induction h with
  | nil => rfl
  | cons p t ih =>
    cases hp : keyEq p.1 n with
    | true => simpa [hdelete, List.filter, hp] using ih
    | false => simpa [hdelete, List.filter, hget, List.find?, hp] using ih

theorem hget_hdelete_ne (h : HeaderMap) {m n : String} (hmn : keyEq m n = false) :
    hget (hdelete h n) m = hget h m := by
  induction h with
  | nil => rfl
  | cons p t ih =>
    cases hp : keyEq p.1 m with
    | true =>
      have hpn : keyEq p.1 n = false := keyEq_trans_ne hp hmn
      simp [hdelete, List.filter, hpn, hget, List.find?, hp]
    | false =>
      cases hpn : keyEq p.1 n with
      | true => simpa [hdelete, List.filter, hpn, hget, List.find?, hp] using ih
      | false => simpa [hdelete, List.filter, hpn, hget, List.find?, hp] using ih

theorem hget_append_right {h1 h2 : HeaderMap} {n : String}
    (hnone : hget h1 n = none) : hget (h1 ++ h2) n = hget h2 n := by
  induction h1 with
  | nil => rfl
  | cons p t ih =>
    cases hp : keyEq p.1 n with
    | true => simp [hget, List.find?, hp] at hnone
    | false =>
      simp only [hget, List.find?, hp, List.cons_append] at hnone ⊢
      exact ih hnone

theorem hget_append_single_ne (l : HeaderMap) {m n : String} (v : String)
    (hnm : keyEq n m = false) : hget (l ++ [(n, v)]) m = hget l m := by
  induction l with
  | nil => simp [hget, List.find?, hnm]
  | cons p t ih =>
    cases hp : keyEq p.1 m with
    | true => simp [hget, List.find?, hp]
    | false => simpa [hget, List.find?, hp] using ih

theorem hget_hset_same (h : HeaderMap) (n v : String) :
    hget (hset h n v) n = some v := by
  unfold hset
  rw [hget_append_right (hget_hdelete_same h n)]
  simp [hget, List.find?, keyEq]

theorem hget_hset_ne (h : HeaderMap) {m n : String} (v : String)
    (hmn : keyEq m n = false) : hget (hset h n v) m = hget h m := by
  unfold hset
  rw [hget_append_single_ne _ _ (keyEq_symm_false hmn), hget_hdelete_ne h hmn]

/-- The full CORS header set of the spec, as found by `hget`. -/
def corsOk (h : HeaderMap) : Prop :=
  hget h "Access-Control-Allow-Origin" = some "*" ∧
  hget h "Access-Control-Allow-Methods" = some "GET, HEAD, OPTIONS" ∧
  hget h "Access-Control-Allow-Headers" = some "Content-Type" ∧
  hget h "Access-Control-Max-Age" = some "86400"

theorem corsOk_setCorsHeaders (h : HeaderMap) : corsOk (setCorsHeaders h) := by
  unfold corsOk setCorsHeaders
  refine ⟨?_, ?_, ?_, ?_⟩
  · rw [hget_hset_ne _ _ (by decide), hget_hset_ne _ _ (by decide),
      hget_hset_ne _ _ (by decide), hget_hset_same]
  · rw [hget_hset_ne _ _ (by decide), hget_hset_ne _ _ (by decide), hget_hset_same]
  · rw [hget_hset_ne _ _ (by decide), hget_hset_same]
  · rw [hget_hset_same]

/-- Setting a non-CORS header preserves the CORS set. -/
theorem corsOk_hset (h : HeaderMap) {n : String} (v : String)
    (h1 : keyEq "Access-Control-Allow-Origin" n = false)
    (h2 : keyEq "Access-Control-Allow-Methods" n = false)
    (h3 : keyEq "Access-Control-Allow-Headers" n = false)
    (h4 : keyEq "Access-Control-Max-Age" n = false)
    (hc : corsOk h) : corsOk (hset h n v) := by
  obtain ⟨c1, c2, c3, c4⟩ := hc
  exact ⟨by rwa [hget_hset_ne _ _ h1], by rwa [hget_hset_ne _ _ h2],
    by rwa [hget_hset_ne _ _ h3], by rwa [hget_hset_ne _ _ h4]⟩

/-- Deleting a non-CORS header preserves the CORS set. -/
theorem corsOk_hdelete (h : HeaderMap) {n : String}
    (h1 : keyEq "Access-Control-Allow-Origin" n = false)
    (h2 : keyEq "Access-Control-Allow-Methods" n = false)
    (h3 : keyEq "Access-Control-Allow-Headers" n = false)
    (h4 : keyEq "Access-Control-Max-Age" n = false)
    (hc : corsOk h) : corsOk (hdelete h n) := by
  obtain ⟨c1, c2, c3, c4⟩ := hc
  exact ⟨by rwa [hget_hdelete_ne _ h1], by rwa [hget_hdelete_ne _ h2],
    by rwa [hget_hdelete_ne _ h3], by rwa [hget_hdelete_ne _ h4]⟩

theorem corsOk_createErrorResponse (m : String) (s : Nat) (l : Option String) :
    corsOk (createErrorResponse m s l).headers :=
  corsOk_setCorsHeaders _

theorem corsOk_successBaseHeaders (fileR : FileResult) :
    corsOk (successBaseHeaders fileR) := by
  have base : corsOk (hset (setCorsHeaders []) "Content-Type" (resolvedContentType fileR)) :=
    corsOk_hset _ _ (by decide) (by decide) (by decide) (by decide)
      (corsOk_setCorsHeaders [])
  unfold successBaseHeaders
  cases hget fileR.headers "Content-Length" with
  | none => exact base
  | some v =>
    exact corsOk_hset _ _ (by decide) (by decide) (by decide) (by decide) base

theorem corsOk_scrubHeaders (h : HeaderMap) (hc : corsOk h) :
    corsOk (scrubHeaders h) := by
  unfold scrubHeaders
  refine corsOk_hdelete _ (by decide) (by decide) (by decide) (by decide) ?_
  refine corsOk_hdelete _ (by decide) (by decide) (by decide) (by decide) ?_
  refine corsOk_hdelete _ (by decide) (by decide) (by decide) (by decide) ?_
  refine corsOk_hdelete _ (by decide) (by decide) (by decide) (by decide) ?_
  refine corsOk_hdelete _ (by decide) (by decide) (by decide) (by decide) ?_
  refine corsOk_hdelete _ (by decide) (by decide) (by decide) (by decide) ?_
  exact corsOk_hdelete _ (by decide) (by decide) (by decide) (by decide) hc

/-- The success path's headers carry the CORS set whatever the upstream
response was. -/
theorem corsOk_buildSuccessResponse {fileR : FileResult} {link : String}
    {r : HttpResponse} (hr : buildSuccessResponse fileR link = some r) :
    corsOk r.headers := by
  unfold buildSuccessResponse at hr
  cases hcf : computeFilename (hget fileR.headers "Content-Disposition") link
      (resolvedContentType fileR) with
  | none =>
    rw [hcf] at hr
    exact absurd hr (by simp)
  | some fn =>
    rw [hcf] at hr
    simp only [Option.some.injEq] at hr
    subst hr
    refine corsOk_scrubHeaders _ ?_
    refine corsOk_hset _ _ ?_ ?_ ?_ ?_ (corsOk_successBaseHeaders fileR) <;> decide

/-! ## Concrete fixtures for witnesses and counterexamples -/

/-- A landing page whose only extractable link is a `download-button` anchor. -/
def fixturePage : PageResult :=
  { status := 200, statusText := "OK",
    body := "<html><a class=\"x\" id=\"download-button\" href=\"https://dl.example/f.bin\">dl</a></html>" }

/-- An upstream file response with a plain video Content-Type. -/
def fixtureFile : FileResult :=
  { status := 200, statusText := "OK",
    headers := [("Content-Type", "video/mp4"), ("ETag", "W/123"), ("set-cookie", "a=1"),
                ("Vary", "Accept-Encoding"), ("accept-ranges", "bytes"),
                ("content-encoding", "gzip"), ("cf-ray", "r1"), ("alt-svc", "h3")],
    bodyTok := "UPSTREAM-BYTES" }

/-- A network where both fetches succeed. -/
def fixtureNet : Network :=
  { fetchPage := fun _ => fixturePage, fetchFile := fun _ _ => fixtureFile }

/-- A network whose landing page matches no extraction pattern. -/
def fixtureNetNoMatch : Network :=
  { fetchPage := fun _ => { status := 200, statusText := "OK", body := "<html>nothing here</html>" },
    fetchFile := fun _ _ => fixtureFile }

/-- An upstream file response whose `Content-Disposition` filename is a lone
percent sign, a malformed URI component. -/
def fixtureFileBadCD : FileResult :=
  { status := 200, statusText := "OK",
    headers := [("Content-Disposition", "attachment; filename=\"%\"")], bodyTok := "B" }

/-- A network delivering `fixtureFileBadCD`. -/
def fixtureNetBadCD : Network :=
  { fetchPage := fun _ => fixturePage, fetchFile := fun _ _ => fixtureFileBadCD }

/-- A valid MediaFire share link fixture. -/
def fixtureLink : String := "https://www.mediafire.com/file/abc123/Data/file"

/-- A GET request for `fixtureLink`. -/
def fixtureReq : IncomingRequest :=
  { method := "GET", requireParam := some fixtureLink, userAgent := none }

/-! ## C10 -/

/-- C10: the HTTP method is inspected only to detect OPTIONS — two requests
that differ only in their non-OPTIONS method but agree on the `require`
parameter and the `User-Agent` header produce identical outcomes (same
response, same fetches) against any network. -/
theorem C10_method_agnostic (m1 m2 : String) (rq ua : Option String) (net : Network)
    (h1 : m1 ≠ "OPTIONS") (h2 : m2 ≠ "OPTIONS") :
    handleRequest ⟨m1, rq, ua⟩ net = handleRequest ⟨m2, rq, ua⟩ net := by
  unfold handleRequest
  simp only [if_neg h1, if_neg h2]

/-- Witness for C10 at concrete requests. -/
theorem C10_method_agnostic_witness :
    handleRequest ⟨"POST", some fixtureLink, none⟩ fixtureNet =
      handleRequest ⟨"GET", some fixtureLink, none⟩ fixtureNet :=
  C10_method_agnostic "POST" "GET" (some fixtureLink) none fixtureNet
    (by decide) (by decide)

/-! ## C9 -/

/-- C9: link validation.  (1) A missing or empty `require` value yields a
400 response whose JSON body has the (non-empty) missing-parameter error and
`link_provided = "N/A"`, with no fetch issued.  (2) A non-empty `require`
value starting with neither allowed prefix yields a 400 whose body echoes
the input exactly, with no fetch issued. -/
theorem C9_link_validation :
    (∀ (req : IncomingRequest) (net : Network), req.method ≠ "OPTIONS" →
       (req.requireParam = none ∨ req.requireParam = some "") →
       (handleRequest req net).resp.status = 400 ∧
       (handleRequest req net).resp.body = RespBody.json msgMissingParam "N/A" ∧
       msgMissingParam ≠ "" ∧
       (handleRequest req net).fetchedPage = false ∧
       (handleRequest req net).fetchedFile = false) ∧
    (∀ (req : IncomingRequest) (net : Network) (s : String), req.method ≠ "OPTIONS" →
       req.requireParam = some s → s ≠ "" →
       strStartsWith s "http://www.mediafire.com/" = false →
       strStartsWith s "https://www.mediafire.com/" = false →
       (handleRequest req net).resp.status = 400 ∧
       (handleRequest req net).resp.body = RespBody.json msgInvalidLink s ∧
       (handleRequest req net).fetchedPage = false ∧
       (handleRequest req net).fetchedFile = false) := by
  constructor
  · intro req net hm hr
    have hout : handleRequest req net =
        { resp := createErrorResponse msgMissingParam 400 none,
          fetchedPage := false, fetchedFile := false } := by
      unfold handleRequest
      rw [if_neg hm]
      unfold mainPipeline
      rcases hr with h | h
      · rw [h]
      · simp [h]
    rw [hout]
    exact ⟨rfl, rfl, by decide, rfl, rfl⟩
  · intro req net s hm hr hs hp1 hp2
    have hout : handleRequest req net =
        { resp := createErrorResponse msgInvalidLink 400 (some s),
          fetchedPage := false, fetchedFile := false } := by
      unfold handleRequest
      rw [if_neg hm]
      unfold mainPipeline
      simp only [hr]
      rw [if_neg hs]
      rw [if_pos (by rw [hp1, hp2]; rfl)]
    rw [hout]
    refine ⟨rfl, ?_, rfl, rfl⟩
    show RespBody.json msgInvalidLink (jsOr (some s) "N/A") = RespBody.json msgInvalidLink s
    rw [show jsOr (some s) "N/A" = s from by simp only [jsOr]; rw [if_neg hs]]

/-- Witness for C9 at concrete requests. -/
theorem C9_link_validation_witness :
    ((handleRequest ⟨"GET", none, none⟩ fixtureNet).resp.status = 400 ∧
     (handleRequest ⟨"GET", none, none⟩ fixtureNet).resp.body =
       RespBody.json msgMissingParam "N/A" ∧
     msgMissingParam ≠ "" ∧
     (handleRequest ⟨"GET", none, none⟩ fixtureNet).fetchedPage = false ∧
     (handleRequest ⟨"GET", none, none⟩ fixtureNet).fetchedFile = false) ∧
    ((handleRequest ⟨"GET", some "https://evil.example/x", none⟩ fixtureNet).resp.status = 400 ∧
     (handleRequest ⟨"GET", some "https://evil.example/x", none⟩ fixtureNet).resp.body =
       RespBody.json msgInvalidLink "https://evil.example/x" ∧
     (handleRequest ⟨"GET", some "https://evil.example/x", none⟩ fixtureNet).fetchedPage = false ∧
     (handleRequest ⟨"GET", some "https://evil.example/x", none⟩ fixtureNet).fetchedFile = false) :=
  ⟨C9_link_validation.1 ⟨"GET", none, none⟩ fixtureNet (by decide) (Or.inl rfl),
   C9_link_validation.2 ⟨"GET", some "https://evil.example/x", none⟩ fixtureNet
     "https://evil.example/x" (by decide) rfl (by decide) (by decide) (by decide)⟩

/-! ## C8 -/

/-- C8: when the landing page matches none of the four extraction patterns
(so `extractDirectUrl` yields nothing), the request ends in a 500 JSON error
carrying the extraction-failure message, and the direct-URL fetch is never
attempted. -/
theorem C8_extraction_failed_500 (req : IncomingRequest) (net : Network) (link : String)
    (hm : req.method ≠ "OPTIONS") (hr : req.requireParam = some link) (hne : link ≠ "")
    (hpre : strStartsWith link "http://www.mediafire.com/" = true ∨
            strStartsWith link "https://www.mediafire.com/" = true)
    (hok : respOk (net.fetchPage link).status = true)
    (hex : extractDirectUrl (net.fetchPage link).body.data = none) :
    (handleRequest req net).resp.status = 500 ∧
    (handleRequest req net).resp.body = RespBody.json msgExtractionFailed link ∧
    (handleRequest req net).fetchedFile = false := by
  have hout : handleRequest req net =
      { resp := createErrorResponse msgExtractionFailed 500 (some link),
        fetchedPage := true, fetchedFile := false } := by
    unfold handleRequest
    rw [if_neg hm]
    unfold mainPipeline
    simp only [hr]
    rw [if_neg hne]
    rw [if_neg (by rcases hpre with h | h <;> simp [h])]
    unfold pipelineAfterValidation
    rw [if_neg (by simp [hok])]
    rw [hex]
  rw [hout]
  refine ⟨rfl, ?_, rfl⟩
  show RespBody.json msgExtractionFailed (jsOr (some link) "N/A") =
    RespBody.json msgExtractionFailed link
  rw [show jsOr (some link) "N/A" = link from by simp only [jsOr]; rw [if_neg hne]]

/-- Witness for C8 on a page matching no pattern. -/
theorem C8_extraction_failed_500_witness :
    (handleRequest fixtureReq fixtureNetNoMatch).resp.status = 500 ∧
    (handleRequest fixtureReq fixtureNetNoMatch).resp.body =
      RespBody.json msgExtractionFailed fixtureLink ∧
    (handleRequest fixtureReq fixtureNetNoMatch).fetchedFile = false :=
  C8_extraction_failed_500 fixtureReq fixtureNetNoMatch fixtureLink
    (by decide) rfl (by decide) (Or.inr (by decide)) (by decide) (by decide)

/-! ## C3 -/

/-- C3: every response the handler produces — the OPTIONS preflight, every
JSON error, and the relayed success — carries the full CORS header set. -/
theorem C3_cors_on_every_response (req : IncomingRequest) (net : Network) :
    corsOk (handleRequest req net).resp.headers := by
  unfold handleRequest mainPipeline pipelineAfterValidation fileStage
  repeat' split
  all_goals
    first
      | exact corsOk_setCorsHeaders []
      | exact corsOk_createErrorResponse _ _ _
      | (rename_i hr; exact corsOk_buildSuccessResponse hr)

/-! ## C7 -/

theorem createErrorResponse_body (m : String) (s : Nat) (l : Option String) :
    (createErrorResponse m s l).body = RespBody.json m (jsOr l "N/A") := rfl

theorem optionsResponse_body : optionsResponse.body = RespBody.empty := rfl

/-- The seven headers the relay must never emit, as found by `hget`. -/
def scrubbedOk (h : HeaderMap) : Prop :=
  hget h "set-cookie" = none ∧ hget h "etag" = none ∧ hget h "vary" = none ∧
  hget h "accept-ranges" = none ∧ hget h "content-encoding" = none ∧
  hget h "cf-ray" = none ∧ hget h "alt-svc" = none

theorem scrubbedOk_scrubHeaders (h : HeaderMap) : scrubbedOk (scrubHeaders h) := by
  unfold scrubbedOk scrubHeaders
  refine ⟨?_, ?_, ?_, ?_, ?_, ?_, ?_⟩
  · rw [hget_hdelete_ne _ (by decide), hget_hdelete_ne _ (by decide),
      hget_hdelete_ne _ (by decide), hget_hdelete_ne _ (by decide),
      hget_hdelete_ne _ (by decide), hget_hdelete_ne _ (by decide),
      hget_hdelete_same]
  · rw [hget_hdelete_ne _ (by decide), hget_hdelete_ne _ (by decide),
      hget_hdelete_same]
  · rw [hget_hdelete_ne _ (by decide), hget_hdelete_ne _ (by decide),
      hget_hdelete_ne _ (by decide), hget_hdelete_same]
  · rw [hget_hdelete_same]
  · rw [hget_hdelete_ne _ (by decide), hget_hdelete_same]
  · rw [hget_hdelete_ne _ (by decide), hget_hdelete_ne _ (by decide),
      hget_hdelete_ne _ (by decide), hget_hdelete_ne _ (by decide),
      hget_hdelete_ne _ (by decide), hget_hdelete_same]
  · rw [hget_hdelete_ne _ (by decide), hget_hdelete_ne _ (by decide),
      hget_hdelete_ne _ (by decide), hget_hdelete_ne _ (by decide),
      hget_hdelete_same]

/-- A successful relay response's headers are scrubbed. -/
theorem scrubbedOk_buildSuccessResponse {fileR : FileResult} {link : String}
    {r : HttpResponse} (hr : buildSuccessResponse fileR link = some r) :
    scrubbedOk r.headers := by
  unfold buildSuccessResponse at hr
  cases hcf : computeFilename (hget fileR.headers "Content-Disposition") link
      (resolvedContentType fileR) with
  | none =>
    rw [hcf] at hr
    exact absurd hr (by simp)
  | some fn =>
    rw [hcf] at hr
    simp only [Option.some.injEq] at hr
    subst hr
    exact scrubbedOk_scrubHeaders _

/-- C7: the headers `set-cookie`, `etag`, `vary`, `accept-ranges`,
`content-encoding`, `cf-ray` and `alt-svc` never appear in a successful
relayed response (a response whose body is the upstream stream), whatever
headers the upstream file response carried. -/
theorem C7_scrubbed_headers (req : IncomingRequest) (net : Network) (t : String)
    (hs : (handleRequest req net).resp.body = RespBody.stream t) :
    scrubbedOk (handleRequest req net).resp.headers := by
  revert hs
  unfold handleRequest mainPipeline pipelineAfterValidation fileStage
  repeat' split
  all_goals intro hs
  all_goals
    first
      | (simp only [createErrorResponse_body, optionsResponse_body] at hs;
         exact RespBody.noConfusion hs)
      | (rename_i hr; exact scrubbedOk_buildSuccessResponse hr)

/-- Witness for C7: a concrete successful relay. -/
theorem C7_scrubbed_headers_witness :
    scrubbedOk (handleRequest fixtureReq fixtureNet).resp.headers :=
  C7_scrubbed_headers fixtureReq fixtureNet "UPSTREAM-BYTES" (by decide)

/-! ## C2 -/

/-- Every extension in the source's MIME table is non-empty and does not
occur inside the name `My File`. -/
theorem extMap_values_ok :
    ∀ p ∈ extMap, p.2.data.isEmpty = false ∧
      strIncludes "My File".data p.2.data = false := by decide

/-- A successful table lookup yields such an extension. -/
theorem extMapLookup_ok {k e : List Char} (h : extMapLookup k = some e) :
    e.isEmpty = false ∧ strIncludes "My File".data e = false := by
  unfold extMapLookup at h
  cases hf : extMap.find? (fun p => decide (p.1.data = k)) with
  | none => rw [hf] at h; exact absurd h (by simp)
  | some pr =>
    rw [hf] at h
    have h2 : pr.2.data = e := by simpa using h
    subst h2
    exact extMap_values_ok pr (List.mem_of_find?_eq_some hf)

/-- C2: filename inference.  (1) With upstream
`Content-Disposition: attachment; filename="report.pdf"`, the computed
filename is `report.pdf`, whatever the source link and resolved
Content-Type.  (2) With no Content-Disposition and the source link
`…/file/abc123/My+File/file`, the name is `My File` (plus-decoded), and any
resolved Content-Type with a known table entry `e` appends `.e` to it. -/
theorem C2_filename_inference :
    (∀ (link ct : String),
       computeFilename (some "attachment; filename=\"report.pdf\"") link ct =
         some "report.pdf") ∧
    (∀ (ct : String) (e : List Char), extMapLookup (mimeOf ct.data) = some e →
       computeFilename none "https://www.mediafire.com/file/abc123/My+File/file" ct =
         some (String.mk ("My File".data ++ '.' :: e))) := by
  constructor
  · intro link ct
    have hcd : cdFilename (some "attachment; filename=\"report.pdf\"") =
        some (some "report.pdf".data) := by decide
    unfold computeFilename
    rw [hcd]
    show (if "report.pdf".data = defaultFilename then _ else _) = _
    rw [if_neg (by decide)]
    rfl
  · intro ct e he
    have hct : ct ≠ "" := by
      intro h0
      rw [h0] at he
      rw [show extMapLookup (mimeOf "".data) = none from by decide] at he
      exact Option.noConfusion he
    obtain ⟨he1, he2⟩ := extMapLookup_ok he
    have hje : jsExtFor (mimeOf ct.data) = some e := by
      unfold jsExtFor
      rw [he]
    unfold computeFilename
    show (if (Option.getD none defaultFilename) = defaultFilename then _ else _) = _
    rw [if_pos (show (Option.getD none defaultFilename) = defaultFilename from rfl)]
    rw [show fallbackName "https://www.mediafire.com/file/abc123/My+File/file" =
        "My File".data from by decide]
    unfold appendExtension
    rw [if_pos (by
      simp [hct, show strIncludes "My File".data ".".data = false from by decide])]
    simp only [hje]
    rw [if_pos (by rw [he1, he2]; rfl)]

/-- Witness for C2 at a concrete Content-Type. -/
theorem C2_filename_inference_witness :
    computeFilename (some "attachment; filename=\"report.pdf\"")
      "https://www.mediafire.com/file/x/y/file" "application/zip" = some "report.pdf" ∧
    computeFilename none "https://www.mediafire.com/file/abc123/My+File/file"
      "video/mp4" = some (String.mk ("My File".data ++ '.' :: "mp4".data)) :=
  ⟨C2_filename_inference.1 "https://www.mediafire.com/file/x/y/file" "application/zip",
   C2_filename_inference.2 "video/mp4" "mp4".data (by decide)⟩

/-! ## C6 -/

/-- C6 counterexample: with upstream
`Content-Disposition: attachment; filename="report"` (no extension) and
resolved Content-Type `application/pdf` (a known table entry mapping to
`pdf`), the computed filename stays `report` — no `.pdf` is appended,
because the extension step only runs when the name is still the default. -/
theorem C6_counterexample :
    computeFilename (some "attachment; filename=\"report\"")
      "https://www.mediafire.com/file/abc123/data/file" "application/pdf" =
      some "report" ∧
    computeFilename (some "attachment; filename=\"report\"")
      "https://www.mediafire.com/file/abc123/data/file" "application/pdf" ≠
      some "report.pdf" := by
  constructor
  · decide
  · decide

/-- C6 (amended): the extension-append step applies only on the fallback
path.  (1) A name taken from Content-Disposition that differs from the
default is returned as is, never extended.  (2) When Content-Disposition
yields no name, the result is the fallback name with the extension step
applied.  (3) On a name without a dot, a non-empty Content-Type whose MIME
part has a known table entry `e` not already contained in the name makes
the step append `.e`. -/
theorem C6_extension_append_scope :
    (∀ (cd : Option String) (n : List Char) (link ct : String),
       cdFilename cd = some (some n) → n ≠ defaultFilename →
       computeFilename cd link ct = some (String.mk n)) ∧
    (∀ (cd : Option String) (link ct : String), cdFilename cd = some none →
       computeFilename cd link ct =
         some (String.mk (appendExtension (fallbackName link) ct))) ∧
    (∀ (name : List Char) (ct : String) (e : List Char),
       strIncludes name ".".data = false → ct ≠ "" →
       extMapLookup (mimeOf ct.data) = some e → e.isEmpty = false →
       strIncludes name e = false →
       appendExtension name ct = name ++ '.' :: e) := by
  refine ⟨?_, ?_, ?_⟩
  · intro cd n link ct hcd hne
    unfold computeFilename
    rw [hcd]
    show (if n = defaultFilename then _ else _) = _
    rw [if_neg hne]
    rfl
  · intro cd link ct hcd
    unfold computeFilename
    rw [hcd]
    rfl
  · intro name ct e h1 h2 h3 h4 h5
    have hje : jsExtFor (mimeOf ct.data) = some e := by
      unfold jsExtFor
      rw [h3]
    unfold appendExtension
    rw [if_pos (by rw [h1]; simp [h2])]
    simp only [hje]
    rw [if_pos (by rw [h4, h5]; rfl)]

/-- Witness for C6 (amended) at concrete inputs. -/
theorem C6_extension_append_scope_witness :
    computeFilename (some "attachment; filename=\"notes.txt\"")
      "https://www.mediafire.com/file/abc123/data/file" "application/pdf" =
      some (String.mk "notes.txt".data) ∧
    appendExtension "report".data "application/pdf" = "report".data ++ '.' :: "pdf".data :=
  ⟨C6_extension_append_scope.1 (some "attachment; filename=\"notes.txt\"")
     "notes.txt".data "https://www.mediafire.com/file/abc123/data/file"
     "application/pdf" (by decide) (by decide),
   C6_extension_append_scope.2.2 "report".data "application/pdf" "pdf".data
     (by decide) (by decide) (by decide) (by decide) (by decide)⟩

/-! ## C4 -/

/-- C4 counterexample: an upstream `Content-Disposition` whose filename is a
lone percent sign makes `decodeURIComponent` throw *outside* the local
try/catch, so the whole request becomes the 500 `UnexpectedFault` JSON
response instead of completing with a fallback filename. -/
theorem C4_counterexample :
    (handleRequest fixtureReq fixtureNetBadCD).resp.status = 500 ∧
    (handleRequest fixtureReq fixtureNetBadCD).resp.body =
      RespBody.json msgInternalError fixtureLink ∧
    (handleRequest fixtureReq fixtureNetBadCD).resp.body ≠
      RespBody.stream fixtureFileBadCD.bodyTok := by
  refine ⟨?_, ?_, ?_⟩
  · decide
  · decide
  · decide

/-- C4 (amended): parsing failures in the URL-path fallback of filename
inference are swallowed locally — whenever the Content-Disposition step
itself does not throw, filename inference always completes.  A link whose
path segment holds a malformed escape (`Bad%GG`) silently falls back to the
default name (extended from the Content-Type).  Only the
Content-Disposition decode can escape (see the counterexample). -/
theorem C4_path_failures_swallowed :
    (∀ (cd : Option String) (link ct : String), cdFilename cd ≠ none →
       (computeFilename cd link ct).isSome) ∧
    computeFilename none "https://www.mediafire.com/file/abc123/Bad%GG/file"
      "application/pdf" = some "downloaded_file.pdf" := by
  constructor
  · intro cd link ct hcd
    unfold computeFilename
    obtain ⟨cdn, h⟩ := Option.ne_none_iff_exists'.mp hcd
    rw [h]
    show (if cdn.getD defaultFilename = defaultFilename then
        some (String.mk (appendExtension (fallbackName link) ct))
      else some (String.mk (cdn.getD defaultFilename))).isSome = true
    split <;> rfl
  · decide

/-- Witness for C4 (amended). -/
theorem C4_path_failures_swallowed_witness :
    (computeFilename none "https://www.mediafire.com/file/h/n/file" "text/plain").isSome :=
  C4_path_failures_swallowed.1 none "https://www.mediafire.com/file/h/n/file"
    "text/plain" (by decide)

/-! ## C1 -/

/-- C1 counterexample: an anchor carrying `id="download-button"` and
`href="http://x"` with the href attribute *before* the id attribute is not
matched by pattern 1 (which requires id before href), no other pattern
matches, and the extractor returns nothing — not `http://x`. -/
theorem C1_counterexample :
    extractDirectUrl "<a href=\"http://x\" id=\"download-button\">".data = none ∧
    extractDirectUrl "<a href=\"http://x\" id=\"download-button\">".data ≠
      some "http://x".data := by
  constructor
  · decide
  · decide

/-- C1 (amended): (1) whenever pattern 1 produces a (non-empty) capture,
the extractor returns exactly that capture, ignoring patterns 2–4; and
(2) pattern 1 is guaranteed to produce a capture on any text containing
`<a id="download-button" href="X">` with the id attribute before href and
`X` non-empty and quote-free.  An anchor listing href before id is not
matched by pattern 1 (see the counterexample). -/
theorem C1_download_button_priority :
    (∀ (html X : List Char),
       nonemptyOpt (searchCapture downloadLinkRegex1 html) = some X →
       extractDirectUrl html = some X) ∧
    (∀ (pre post X : List Char), X ≠ [] → (∀ c ∈ X, c ≠ '"') →
       (searchCapture downloadLinkRegex1
         (pre ++ ("<a id=\"download-button\" href=\"".data ++
           (X ++ ('"' :: post))))).isSome = true) := by
  constructor
  · intro html X h
    unfold extractDirectUrl
    rw [h]
  · intro pre post X hne hq
    apply searchCapture_isSome_of_suffix (List.suffix_append pre _)
    obtain ⟨x, xs, rfl⟩ := List.exists_cons_of_ne_nil hne
    have hx : notQuote x = true := by
      simp only [notQuote, decide_eq_true_eq]
      exact hq x (List.mem_cons_self x xs)
    have hxs : ∀ c ∈ xs, notQuote c = true := by
      intro c hc
      simp only [notQuote, decide_eq_true_eq]
      exact hq c (List.mem_cons_of_mem x hc)
    unfold matchTop downloadLinkRegex1
    simp only [liti, plusCls, reMatch, List.append_assoc, List.cons_append,
      List.nil_append, List.append_nil, String.data, if_true, List.append_eq,
      List.foldr, litChain]
    refine greedyStar_isSome_cons (by decide) ?_
    refine greedyStar_isSome_base ?_
    simp only [reMatch, if_true]
    refine greedyStar_isSome_cons (by decide) ?_
    refine greedyStar_isSome_base ?_
    simp only [reMatch, if_true]
    rw [if_pos hx]
    refine greedyStar_isSome_append xs hxs ?_
    simp only [reMatch, if_true]
    simp

/-- Witness for C1 (amended): a concrete page where pattern 1 matches and
the extractor returns its capture. -/
theorem C1_download_button_priority_witness :
    extractDirectUrl
      "<a id=\"download-button\" href=\"https://dl.example/f.bin\"> var download_url = \"https://other.example/x.zip\";".data =
      some "https://dl.example/f.bin".data :=
  C1_download_button_priority.1 _ "https://dl.example/f.bin".data (by decide)

/-! ## C5 -/

/-- C5 counterexample: a page containing the assignment
`download_url = "https://host/file.bin";` *without* the `var` keyword is
matched by no pattern (pattern 2 requires the `var` prefix), so the
extractor returns nothing rather than the URL. -/
theorem C5_counterexample :
    extractDirectUrl "download_url = \"https://host/file.bin\";".data = none ∧
    extractDirectUrl "download_url = \"https://host/file.bin\";".data ≠
      some "https://host/file.bin".data := by
  constructor
  · decide
  · decide

/-- C5 (amended): (1) when pattern 1 yields nothing and pattern 2 produces
a (non-empty) capture, the extractor returns that capture; and (2) pattern 2
is guaranteed to match on any text containing the full statement
`var download_url = "<scheme>://<rest>";` — the `var` keyword and the
closing `";` are required by the pattern, contrary to the claim's
"no additional required prefix" (see the counterexample). -/
theorem C5_download_url_assignment :
    (∀ (html X : List Char),
       nonemptyOpt (searchCapture downloadLinkRegex1 html) = none →
       nonemptyOpt (searchCapture jsDownloadLinkRegex2 html) = some X →
       extractDirectUrl html = some X) ∧
    (∀ (pre post rest scheme : List Char),
       scheme = "http".data ∨ scheme = "https".data →
       rest ≠ [] → (∀ c ∈ rest, c ≠ '"') →
       (searchCapture jsDownloadLinkRegex2
         (pre ++ ("var download_url = \"".data ++ (scheme ++ ("://".data ++
           (rest ++ ("\";".data ++ post))))))).isSome = true) := by
  constructor
  · intro html X h1 h2
    unfold extractDirectUrl
    rw [h1, h2]
  · intro pre post rest scheme hs hne hq
    apply searchCapture_isSome_of_suffix (List.suffix_append pre _)
    obtain ⟨r, rs, rfl⟩ := List.exists_cons_of_ne_nil hne
    have hr : notQuote r = true := by
      simp only [notQuote, decide_eq_true_eq]
      exact hq r (List.mem_cons_self r rs)
    have hrs : ∀ c ∈ rs, notQuote c = true := by
      intro c hc
      simp only [notQuote, decide_eq_true_eq]
      exact hq c (List.mem_cons_of_mem r hc)
    rcases hs with h | h <;> subst h <;>
      unfold matchTop jsDownloadLinkRegex2 httpUrlQuoteBody <;>
      simp only [liti, plusCls, reOpt, reMatch, List.append_assoc, List.cons_append,
        List.nil_append, List.append_nil, String.data, if_true, List.append_eq,
        List.foldr, litChain]
    · rw [if_pos (show jsWhitespace ' ' = true from by decide)]
      refine greedyStar_isSome_base ?_
      simp only [reMatch, if_true]
      refine greedyStar_isSome_cons (by decide) ?_
      refine greedyStar_isSome_base ?_
      simp only [reMatch, if_true]
      refine greedyStar_isSome_cons (by decide) ?_
      refine greedyStar_isSome_base ?_
      simp only [reMatch, if_true]
      refine isSome_orElse_right ?_
      rw [if_pos hr]
      refine greedyStar_isSome_append rs hrs ?_
      simp only [reMatch, if_true]
      simp
    · rw [if_pos (show jsWhitespace ' ' = true from by decide)]
      refine greedyStar_isSome_base ?_
      simp only [reMatch, if_true]
      refine greedyStar_isSome_cons (by decide) ?_
      refine greedyStar_isSome_base ?_
      simp only [reMatch, if_true]
      refine greedyStar_isSome_cons (by decide) ?_
      refine greedyStar_isSome_base ?_
      simp only [reMatch, if_true]
      refine isSome_orElse_left ?_
      rw [if_pos hr]
      refine greedyStar_isSome_append rs hrs ?_
      simp only [reMatch, if_true]
      simp

/-- Witness for C5 (amended): a page with no download-button anchor where
pattern 2 matches and the extractor returns the assigned URL. -/
theorem C5_download_url_assignment_witness :
    extractDirectUrl "<p>x</p> var download_url = \"https://dl.example/a.zip\";".data =
      some "https://dl.example/a.zip".data :=
  C5_download_url_assignment.1 _ "https://dl.example/a.zip".data
    (by decide) (by decide)
